import Mathlib

/-!
Shallow embedding of the challenge engine of TheMazeOfOsiris
(`src/app/all_challenges.py`, `src/app/database/database.py`,
`src/app/base_challenge.py`).

Team documents live in a MongoDB collection; we model a document store as a
list of team records and the Mongo operations (`find_one`, `insert_one`,
`update_one` with `$inc`/`$push`/`$set`) as list operations acting on the
first record whose `team_id` matches.  JSON-like values (question payloads,
submitted request bodies, `data_to_validate` entries) are modelled by the
inductive `Val`; Python dictionaries are association lists preserving
insertion order, exactly as Python 3.7+ dicts do.

Python's `str()` conversion is modelled by `pyStr` (falling back to a
`repr`-style rendering `pyRepr` for non-string values), and `str.strip()`
by `pyStrip` (stripping surrounding ASCII whitespace; exotic Unicode
whitespace, and quote/escape subtleties of `repr` on nested containers, are
outside every code path exercised here and are not modelled further).
-/

/-- JSON-like Python value: `None`, strings, integers, lists and dicts
(dicts as insertion-ordered association lists). -/
inductive Val where
  | vNone : Val
  | vStr (s : String) : Val
  | vInt (n : Int) : Val
  | vList (xs : List Val) : Val
  | vDict (es : List (String × Val)) : Val

/-- `True` iff the value is a Python dict (`isinstance(x, dict)`). -/
def Val.isDict : Val → Bool
  | .vDict _ => true
  | _ => false

/-- Python `repr()` of a value (used by `str()` on non-string values).
`repr` of a string is the string in single quotes; escaping inside string
literals is not modelled (no code path here reprs a string containing a
quote). -/
def pyRepr : Val → String
  | .vNone => "None"
  | .vStr s => "'" ++ s ++ "'"
  | .vInt n => toString n
  | .vList xs =>
      "[" ++ String.intercalate ", " (xs.attach.map (fun x => pyRepr x.1)) ++ "]"
  | .vDict es =>
      "\x7b" ++
        String.intercalate ", "
          (es.attach.map (fun kv => "'" ++ kv.1.1 ++ "': " ++ pyRepr kv.1.2)) ++
      "\x7d"
termination_by v => sizeOf v
decreasing_by
  · have := List.sizeOf_lt_of_mem x.2
    simp only [Val.vList.sizeOf_spec]
    omega
  · rcases kv with ⟨⟨k, v⟩, hm⟩
    have h1 := List.sizeOf_lt_of_mem hm
    simp only [Val.vDict.sizeOf_spec, Prod.mk.sizeOf_spec] at *
    omega

/-- Python `str()` of a value: identity on strings, `repr`-style rendering
otherwise (`str(42) = "42"`, `str(None) = "None"`; containers render via
`pyRepr`, with which the atomic clauses below agree). -/
def pyStr : Val → String
  | .vStr s => s
  | .vNone => "None"
  | .vInt n => toString n
  | v => pyRepr v

/-- ASCII whitespace as recognised by Python `str.strip()`
(space, tab, newline, carriage return, vertical tab, form feed). -/
def pyWs (c : Char) : Bool :=
  c = ' ' || c = '\t' || c = '\n' || c = '\r' || c = '\x0b' || c = '\x0c'

/-- Python `str.strip()`: drop leading and trailing whitespace. -/
def pyStrip (s : String) : String :=
  ⟨((s.data.dropWhile pyWs).reverse.dropWhile pyWs).reverse⟩

/-- Python `str.split(".")`: cut the string at every dot (an empty string
yields `[""]`, a trailing dot yields a trailing empty segment). -/
def splitDot (s : String) : List String :=
  go s.data []
where
  /-- Accumulates the current segment's characters in reverse. -/
  go : List Char → List Char → List String
  | [], acc => [⟨acc.reverse⟩]
  | c :: cs, acc =>
      if c = '.' then ⟨acc.reverse⟩ :: go cs [] else go cs (c :: acc)

/-- Lookup in an insertion-ordered dict: Python `d.get(k)` / `k in d`.
Returns the first binding of the key. -/
def dictGet {α : Type} : List (String × α) → String → Option α
  | [], _ => none
  | (k', v) :: rest, k => if k' = k then some v else dictGet rest k

/-- Lookup with a default (`d.get(k, default)`, and MongoDB reading an
absent numeric field as its default). -/
def lookupD {α : Type} (m : List (String × α)) (k : String) (d : α) : α :=
  (dictGet m k).getD d

/-- MongoDB `$inc` on one field of a sub-document: add to the first binding
of the key, or create the field with the given value if absent. -/
def incKey : List (String × Int) → String → Int → List (String × Int)
  | [], k, v => [(k, v)]
  | (k', v') :: rest, k, v =>
      if k' = k then (k', v' + v) :: rest else (k', v') :: incKey rest k v

/-- MongoDB `$set` on one field of a sub-document: overwrite the first
binding of the key, or append the field if absent. -/
def setKey {α : Type} : List (String × α) → String → α → List (String × α)
  | [], k, v => [(k, v)]
  | (k', v') :: rest, k, v =>
      if k' = k then (k', v) :: rest else (k', v') :: setKey rest k v

/-- A team document, with the fields `Database.create_team` writes
(`src/app/database/database.py:71-83`).  `data_to_validate[challenge]` and
`questions[challenge]` are written later by the challenge generators via
`$set`; an absent challenge key models the absent Mongo sub-field.
Completion timestamps (`datetime.now()`) are modelled by an abstract `Nat`
clock value passed to each operation. -/
structure Team where
  team_no : Nat
  team_id : String
  team_name : String
  total_attempts : List (String × Int)
  incorrect_attempts : List (String × Int)
  cleared_challenges : List String
  points : List (String × Int)
  total_points : Int
  time : List (String × Nat)
  hints : List (String × Int)
  questions : List (String × Val)
  data_to_validate : List (String × List (String × Val))

/-- The `teams` MongoDB collection. -/
abbrev Store : Type := List Team

/-- Store-level error (`ValueError` from `Database.update_score`). -/
inductive DbError where
  | teamNotFound (team_id : String) : DbError
deriving DecidableEq

/-- `Database.get_team` / Mongo `find_one({"team_id": team_id})`: first
document whose `team_id` matches, if any. -/
def get_team : Store → String → Option Team
  | [], _ => none
  | t :: rest, tid => if t.team_id = tid then some t else get_team rest tid

/-- Mongo `update_one({"team_id": tid}, ...)`: apply `f` to the first
matching document (no-op when none matches). -/
def updateFirst : Store → String → (Team → Team) → Store
  | [], _, _ => []
  | t :: rest, tid, f =>
      if t.team_id = tid then f t :: rest else t :: updateFirst rest tid f

/-- The fresh team document inserted by `Database.create_team`
(`database.py:71-83`): all counters zeroed, all collections empty. -/
def newTeam (count : Nat) (team_id team_name : String) : Team :=
  { team_no := count
    team_id := team_id
    team_name := team_name
    total_attempts := []
    incorrect_attempts := []
    cleared_challenges := []
    points := []
    total_points := 0
    time := []
    hints := []
    questions := []
    data_to_validate := [] }

/-- `Database.create_team` (`database.py:55-86`): counts the documents
(`count_documents({})`), defaults the name to `"Team - {count}"` when the
given name is `None` or falsy (Python `team_name or ...`), inserts the
zeroed document unconditionally, and returns the team id. -/
def create_team (db : Store) (team_id : String) (team_name : Option String) :
    String × Store :=
  let count := db.length
  let name :=
    match team_name with
    | none => "Team - " ++ toString count
    | some n => if n = "" then "Team - " ++ toString count else n
  (team_id, db ++ [newTeam count team_id name])

/-- The per-team effect of `Database.update_score` (`database.py:104-125`):
`$inc` of `points.{challenge}`, `total_points`, `total_attempts.{challenge}`
and `incorrect_attempts.{challenge}` (the last by `int(not is_correct)`),
plus, when correct, `$push` onto `cleared_challenges` and `$set` of
`time.{challenge}` to the current clock. -/
def scoreTeam (t : Team) (is_correct : Bool) (points : Int)
    (challenge_name : String) (now : Nat) : Team :=
  let pts := if is_correct then points else -points
  let t' :=
    { t with
      points := incKey t.points challenge_name pts
      total_points := t.total_points + pts
      total_attempts := incKey t.total_attempts challenge_name 1
      incorrect_attempts :=
        incKey t.incorrect_attempts challenge_name
          (if is_correct then 0 else 1) }
  if is_correct then
    { t' with
      cleared_challenges := t'.cleared_challenges ++ [challenge_name]
      time := setKey t'.time challenge_name now }
  else t'

/-- `Database.update_score` (`database.py:88-125`): fetches the team,
raises `ValueError` (modelled as `DbError.teamNotFound`, store untouched)
when absent, otherwise applies the compound `$inc`/`$push`/`$set` update to
the matching document. -/
def update_score (db : Store) (team_id : String) (is_correct : Bool)
    (points : Int) (challenge_name : String) (now : Nat) :
    Except DbError Unit × Store :=
  match get_team db team_id with
  | none => (.error (.teamNotFound team_id), db)
  | some _ =>
      (.ok (),
        updateFirst db team_id
          (fun t => scoreTeam t is_correct points challenge_name now))

/-- The hint-count `$inc` performed by `Database.update_hint_score`. -/
def hintIncTeam (t : Team) (challenge_name : String) : Team :=
  { t with hints := incKey t.hints challenge_name 1 }

/-- `Database.update_hint_score` (`database.py:162-177`):
`update_score(team_id, False, points, challenge_name)` followed by an
`$inc` of `hints.{challenge_name}` by 1; the `ValueError` from
`update_score` propagates before the second update runs. -/
def update_hint_score (db : Store) (team_id : String)
    (challenge_name : String) (points : Int) (now : Nat) :
    Except DbError Unit × Store :=
  match update_score db team_id false points challenge_name now with
  | (.error e, db') => (.error e, db')
  | (.ok _, db') =>
      (.ok (), updateFirst db' team_id (fun t => hintIncTeam t challenge_name))

/-- The combined per-team effect of `update_hint_score` on the requesting
team: score penalty then hint-count increment. -/
def hintTeam (t : Team) (challenge_name : String) (cost : Int) (now : Nat) :
    Team :=
  hintIncTeam (scoreTeam t false cost challenge_name now) challenge_name

/-- `Database.get_nested_value` (`database.py:138-160`): walk the
dot-separated path; at each segment, if the current value is a dict the
segment is looked up with the default as fallback (`json_data.get(key,
default)`), otherwise the default is returned immediately. -/
def get_nested_value (json_data : Val) (path : String) (default : Val) : Val :=
  go (splitDot path) json_data
where
  /-- One loop iteration per path segment, as in the Python `for`. -/
  go : List String → Val → Val
  | [], cur => cur
  | k :: rest, cur =>
      match cur with
      | .vDict es => go rest ((dictGet es k).getD default)
      | _ => default

/-- Static metadata of a challenge class (`Challenge.__init__` in
`src/app/base_challenge.py:36-39`): reward `points`, `penalty`, and the
ordered `hints` list of `(cost, text)` pairs. -/
structure ChallengeCls where
  points : Int
  penalty : Int
  hints : List (Int × String)

/-- HTTP-level failures raised by the engine (`HTTPException`s in
`src/app/all_challenges.py`, plus the generic 500 that `routes.py` maps any
other exception to).  Status codes: `invalidTeam` 400,
`validationDataMissing` 500, `missingParameter` 422, `invalidHintNumber`
400, `internalError` 500. -/
inductive HTTPError where
  | invalidTeam : HTTPError
  | validationDataMissing : HTTPError
  | missingParameter (key : String) : HTTPError
  | invalidHintNumber (message : String) : HTTPError
  | internalError : HTTPError
deriving DecidableEq

/-- The response dict of `AllChallenges.validate`; each constructor is one
of the three literal response dicts:
`info` = `{"status": "info", "message": "You have already cleared this
level.", "total_score": ...}` (`all_challenges.py:169-175`),
`failure` = `{"status": "failure", "message": "Your answer is incorrect.",
"penalty_points": ..., "total_score": ...}` (`all_challenges.py:200-207`),
`success` = `{"status": "success", "message": "Your answer is correct.",
"points_awarded": ..., "total_score": ...}` (`all_challenges.py:216-223`);
all three also carry `challenge_id` and `challenge_name`. -/
inductive VResp where
  | info (challenge_id challenge_name : String) (total_score : Int) : VResp
  | failure (challenge_id challenge_name : String)
      (penalty_points total_score : Int) : VResp
  | success (challenge_id challenge_name : String)
      (points_awarded total_score : Int) : VResp
deriving DecidableEq

/-- Does the submitted value match the expected value?  The source
comparison `str(data.get(key)).strip() != str(value).strip()`
(`all_challenges.py:192`): both sides converted with `str()` then stripped;
an absent submitted key reads as Python `None`. -/
def valMatches (data : List (String × Val)) (kv : String × Val) : Bool :=
  pyStrip (pyStr ((dictGet data kv.1).getD .vNone)) == pyStrip (pyStr kv.2)

/-- `AllChallenges.validate` (`all_challenges.py:146-223`), from the point
where the team and challenge ids have been resolved: `team_id` has been
extracted from the body, the registry lookups `challenges_id[challenge_id]`
and `challenges_classes[challenge_id]` are passed in as `challenge_name`
and `cls`, and `validate_team_and_challenge_id`'s team-existence check is
the `get_team` match below (an unknown team raises 400 `team_id invalid`).
The dotted-path read `get_nested_value(team, f"data_to_validate.{name}")`
is the association lookup on the `data_to_validate` sub-document; the
Python truthiness guard `if not data_to_validate` fails both on an absent
key and on an empty dict.  Returns the response (or error) together with
the store after any `update_score` side effect. -/
def validate (db : Store) (team_id challenge_id challenge_name : String)
    (cls : ChallengeCls) (data : List (String × Val)) (now : Nat) :
    Except HTTPError VResp × Store :=
  match get_team db team_id with
  | none => (.error .invalidTeam, db)
  | some team =>
      let total_score := team.total_points
      if challenge_name ∈ team.cleared_challenges then
        (.ok (.info challenge_id challenge_name total_score), db)
      else
        match dictGet team.data_to_validate challenge_name with
        | none => (.error .validationDataMissing, db)
        | some data_to_validate =>
            if data_to_validate.isEmpty then
              (.error .validationDataMissing, db)
            else
              match data_to_validate.find?
                  (fun kv => (dictGet data kv.1).isNone) with
              | some kv => (.error (.missingParameter kv.1), db)
              | none =>
                  match data_to_validate.find?
                      (fun kv => !(valMatches data kv)) with
                  | some _ =>
                      match update_score db team_id false cls.penalty
                          challenge_name now with
                      | (.ok _, db2) =>
                          (.ok (.failure challenge_id challenge_name
                            cls.penalty (total_score - cls.penalty)), db2)
                      | (.error _, db2) => (.error .internalError, db2)
                  | none =>
                      match update_score db team_id true cls.points
                          challenge_name now with
                      | (.ok _, db2) =>
                          (.ok (.success challenge_id challenge_name
                            cls.points (total_score + cls.points)), db2)
                      | (.error _, db2) => (.error .internalError, db2)

/-- The response dict of `AllChallenges.get_hint`:
`alreadyCleared` = `{"status": "info", "message": "You have already cleared
this level."}` with `challenge_id`/`challenge_name`
(`all_challenges.py:276-281`);
`hint` = `{"status": "sucess", "hint_no": ..., "hint": ..., "total_score":
...}` with the optional `hint_cost` field added only when the hint is newly
paid for (`all_challenges.py:291-303`);
`orderFailure` = the `{"status": "failure", "message": ...}` sequential-
order rejection (`all_challenges.py:304-310`). -/
inductive HResp where
  | alreadyCleared (challenge_id challenge_name : String) : HResp
  | hint (challenge_id challenge_name : String) (hint_no : Int)
      (hint : String) (hint_cost : Option Int) (total_score : Int) : HResp
  | orderFailure : HResp
deriving DecidableEq

/-- `AllChallenges.get_hint` (`all_challenges.py:251-320`), from the point
where ids are resolved (as for `validate`).  `hints_taken` is the dotted
read `get_nested_value(team, f"hints.{name}", default=0)`; the in-range
list index `cls.hints[hint_no - 1]` is modelled with a out-of-range
default that the bounds guard makes unreachable. -/
def get_hint (db : Store) (team_id challenge_id challenge_name : String)
    (cls : ChallengeCls) (hint_no : Int) (now : Nat) :
    Except HTTPError HResp × Store :=
  match get_team db team_id with
  | none => (.error .invalidTeam, db)
  | some team =>
      if challenge_name ∈ team.cleared_challenges then
        (.ok (.alreadyCleared challenge_id challenge_name), db)
      else
        let hints_count : Int := cls.hints.length
        if 0 < hint_no ∧ hint_no ≤ hints_count then
          let hints_taken := lookupD team.hints challenge_name 0
          if hints_taken + 1 ≥ hint_no then
            let total_score := team.total_points
            let hc := cls.hints.getD (hint_no - 1).toNat (0, "")
            if hints_taken + 1 = hint_no then
              match update_hint_score db team_id challenge_name hc.1 now with
              | (.ok _, db2) =>
                  (.ok (.hint challenge_id challenge_name hint_no hc.2
                    (some hc.1) (total_score - hc.1)), db2)
              | (.error _, db2) => (.error .internalError, db2)
            else
              (.ok (.hint challenge_id challenge_name hint_no hc.2 none
                total_score), db)
          else (.ok .orderFailure, db)
        else
          (.error (.invalidHintNumber
            (if cls.hints.length = 0 then
              "No hints available for this level."
            else if cls.hints.length = 1 then
              "There is only one hint available for this level."
            else
              "Invalid hint number. Please provide a hint number between 1 and "
                ++ toString cls.hints.length ++ ".")), db)

/-- Python dict union `d1 | d2`: keys of `d1` in order (values overridden
by `d2` where present), then the keys of `d2` not in `d1`, in order. -/
def pyUnion (d1 d2 : List (String × Val)) : List (String × Val) :=
  (d1.map (fun kv => (kv.1, (dictGet d2 kv.1).getD kv.2))) ++
    d2.filter (fun kv => (dictGet d1 kv.1).isNone)

/-- The `additional_info` dict built by `Challenge.generate_full_question`
(`base_challenge.py:63-74`): challenge id, points, penalty, and the hints
block `{"count": n, "hints_list": [{"hint_no": i+1, "points": cost_i}]}`. -/
def additionalInfo (challenge_id : Val) (cls : ChallengeCls) :
    List (String × Val) :=
  [("challenge_id", challenge_id),
   ("points", .vInt cls.points),
   ("penalty", .vInt cls.penalty),
   ("hints", .vDict
      [("count", .vInt cls.hints.length),
       ("hints_list", .vList
          ((List.range cls.hints.length).map (fun (i : Nat) =>
            .vDict [("hint_no", .vInt ((i : Int) + 1)),
                    ("points", .vInt ((cls.hints.getD i (0, "")).1))])))])]

/-- `Challenge.generate_full_question` (`base_challenge.py:53-75`): the
question payload merged with `additional_info` via Python dict union
`question | additional_info`. -/
def generate_full_question (challenge_id : Val) (cls : ChallengeCls)
    (question : List (String × Val)) : List (String × Val) :=
  pyUnion question (additionalInfo challenge_id cls)

/-- Team stores reachable from an empty collection by any sequence of
`create_team`, `update_score` and `update_hint_score` calls. -/
inductive Reachable : Store → Prop where
  | init : Reachable []
  | create (db : Store) (team_id : String) (team_name : Option String) :
      Reachable db → Reachable (create_team db team_id team_name).2
  | score (db : Store) (team_id : String) (is_correct : Bool) (points : Int)
      (challenge_name : String) (now : Nat) :
      Reachable db →
      Reachable (update_score db team_id is_correct points challenge_name now).2
  | hintScore (db : Store) (team_id challenge_name : String) (points : Int)
      (now : Nat) :
      Reachable db →
      Reachable (update_hint_score db team_id challenge_name points now).2

/-- Sum of a team's per-challenge points map (`sum of points[*]`). -/
def sumPoints (m : List (String × Int)) : Int :=
  (m.map Prod.snd).sum

/-! ### Association-list and store lemmas -/

theorem lookupD_incKey (m : List (String × Int)) (k : String) (v : Int) :
    lookupD (incKey m k v) k 0 = lookupD m k 0 + v := by
  induction m with
  | nil => simp [incKey, lookupD, dictGet]
  | cons kv rest ih =>
      by_cases h : kv.1 = k
      · simp [incKey, lookupD, dictGet, h]
      · simpa [incKey, lookupD, dictGet, h] using ih

theorem sumPoints_incKey (m : List (String × Int)) (k : String) (v : Int) :
    sumPoints (incKey m k v) = sumPoints m + v := by
  induction m with
  | nil => simp [incKey, sumPoints]
  | cons kv rest ih =>
      by_cases h : kv.1 = k
      · obtain ⟨k', v'⟩ := kv
        simp only at h
        subst h
        simp [incKey, sumPoints]
        ring
      · obtain ⟨k', v'⟩ := kv
        simp only at h
        simp [incKey, h, sumPoints] at ih ⊢
        omega

theorem mem_updateFirst {db : Store} {tid : String} {f : Team → Team}
    {t : Team} (h : t ∈ updateFirst db tid f) :
    t ∈ db ∨ ∃ t0, t0 ∈ db ∧ t = f t0 := by
  induction db with
  | nil => simp [updateFirst] at h
  | cons hd rest ih =>
      by_cases hid : hd.team_id = tid
      · simp only [updateFirst, if_pos hid, List.mem_cons] at h
        rcases h with h | h
        · exact .inr ⟨hd, List.mem_cons_self .., h⟩
        · exact .inl (List.mem_cons_of_mem _ h)
      · simp only [updateFirst, if_neg hid, List.mem_cons] at h
        rcases h with h | h
        · exact .inl (h ▸ List.mem_cons_self ..)
        · rcases ih h with h' | ⟨t0, ht0, he⟩
          · exact .inl (List.mem_cons_of_mem _ h')
          · exact .inr ⟨t0, List.mem_cons_of_mem _ ht0, he⟩

theorem get_team_updateFirst (db : Store) (tid : String) (f : Team → Team)
    (hf : ∀ t, (f t).team_id = t.team_id) :
    get_team (updateFirst db tid f) tid = (get_team db tid).map f := by
  induction db with
  | nil => simp [updateFirst, get_team]
  | cons hd rest ih =>
      by_cases hid : hd.team_id = tid
      · simp [updateFirst, get_team, hid, hf]
      · simp [updateFirst, get_team, hid, ih]

theorem updateFirst_updateFirst (db : Store) (tid : String)
    (f g : Team → Team) (hf : ∀ t, (f t).team_id = t.team_id) :
    updateFirst (updateFirst db tid f) tid g
      = updateFirst db tid (fun t => g (f t)) := by
  induction db with
  | nil => simp [updateFirst]
  | cons hd rest ih =>
      by_cases hid : hd.team_id = tid
      · simp [updateFirst, hid, hf]
      · simp [updateFirst, hid, ih]

theorem scoreTeam_team_id (t : Team) (c : Bool) (p : Int) (n : String)
    (now : Nat) : (scoreTeam t c p n now).team_id = t.team_id := by
  cases c <;> simp [scoreTeam]

/-- `update_score` on an existing team: the `ValueError` branch is not
taken and the compound update hits the matching document. -/
theorem update_score_ok {db : Store} {tid : String} {team : Team}
    (h : get_team db tid = some team) (c : Bool) (p : Int) (n : String)
    (now : Nat) :
    update_score db tid c p n now
      = (.ok (), updateFirst db tid (fun t => scoreTeam t c p n now)) := by
  simp [update_score, h]

/-- `update_hint_score` on an existing team: penalty update then hint-count
increment, composed into one pass over the store. -/
theorem update_hint_score_ok {db : Store} {tid : String} {team : Team}
    (h : get_team db tid = some team) (n : String) (cost : Int) (now : Nat) :
    update_hint_score db tid n cost now
      = (.ok (), updateFirst db tid (fun t => hintTeam t n cost now)) := by
  rw [update_hint_score, update_score_ok h]
  simp only [hintTeam]
  rw [updateFirst_updateFirst]
  exact fun t => scoreTeam_team_id ..

/-- C4: `update_score` on an existing team adds `+points` if correct else
`-points` to both `points[challenge]` and `total_points`, increments
`total_attempts[challenge]`, increments `incorrect_attempts[challenge]` iff
incorrect, and iff correct appends the challenge to `cleared_challenges`
and stamps `time[challenge]` with the current clock; on a nonexistent team
it raises the distinct team-not-found error and leaves the store
unchanged. -/
theorem C4_update_score_effects (db : Store) (team_id : String)
    (is_correct : Bool) (points : Int) (challenge_name : String) (now : Nat) :
    (∀ team, get_team db team_id = some team →
      update_score db team_id is_correct points challenge_name now
        = (.ok (), updateFirst db team_id
            (fun t => scoreTeam t is_correct points challenge_name now)) ∧
      get_team (updateFirst db team_id
          (fun t => scoreTeam t is_correct points challenge_name now)) team_id
        = some (scoreTeam team is_correct points challenge_name now) ∧
      (scoreTeam team is_correct points challenge_name now).total_points
        = team.total_points + (if is_correct then points else -points) ∧
      lookupD (scoreTeam team is_correct points challenge_name now).points
          challenge_name 0
        = lookupD team.points challenge_name 0
            + (if is_correct then points else -points) ∧
      lookupD (scoreTeam team is_correct points challenge_name now).total_attempts
          challenge_name 0
        = lookupD team.total_attempts challenge_name 0 + 1 ∧
      lookupD (scoreTeam team is_correct points challenge_name now).incorrect_attempts
          challenge_name 0
        = lookupD team.incorrect_attempts challenge_name 0
            + (if is_correct then 0 else 1) ∧
      (scoreTeam team is_correct points challenge_name now).cleared_challenges
        = (if is_correct then team.cleared_challenges ++ [challenge_name]
           else team.cleared_challenges) ∧
      (scoreTeam team is_correct points challenge_name now).time
        = (if is_correct then setKey team.time challenge_name now
           else team.time)) ∧
    (get_team db team_id = none →
      update_score db team_id is_correct points challenge_name now
        = (.error (.teamNotFound team_id), db)) := by
  constructor
  · intro team hteam
    refine ⟨update_score_ok hteam .., ?_, ?_, ?_, ?_, ?_, ?_, ?_⟩
    · rw [get_team_updateFirst db team_id _ (fun t => scoreTeam_team_id ..),
        hteam]
      rfl
    · cases is_correct <;> simp [scoreTeam]
    · cases is_correct <;> simp [scoreTeam, lookupD_incKey]
    · cases is_correct <;> simp [scoreTeam, lookupD_incKey]
    · cases is_correct <;> simp [scoreTeam, lookupD_incKey]
    · cases is_correct <;> simp [scoreTeam]
    · cases is_correct <;> simp [scoreTeam]
  · intro h
    simp [update_score, h]

/-- Witness for C4 at concrete inputs: a correct submission for the fresh
team `t1`, and an update for the unknown team `zz`. -/
theorem C4_witness :
    update_score [newTeam 0 "t1" "Alpha"] "t1" true 200 "Base69" 5
      = (.ok (), updateFirst [newTeam 0 "t1" "Alpha"] "t1"
          (fun t => scoreTeam t true 200 "Base69" 5)) ∧
    update_score [] "zz" true 1 "p" 0 = (.error (.teamNotFound "zz"), []) :=
  ⟨((C4_update_score_effects [newTeam 0 "t1" "Alpha"] "t1" true 200 "Base69"
      5).1 (newTeam 0 "t1" "Alpha") rfl).1,
   (C4_update_score_effects [] "zz" true 1 "p" 0).2 rfl⟩

/-- C9: in every store reachable by a sequence of `create_team`,
`update_score` and `update_hint_score` operations, every team record's
`total_points` equals the sum of its per-challenge `points` map. -/
theorem C9_total_points_eq_sum (db : Store) (h : Reachable db) :
    ∀ t ∈ db, t.total_points = sumPoints t.points := by
  induction h with
  | init => intro t ht; simp at ht
  | create db tid name _ ih =>
      intro t ht
      simp only [create_team, List.mem_append, List.mem_singleton] at ht
      rcases ht with ht | ht
      · exact ih t ht
      · subst ht; rfl
  | score db tid c pts cname now _ ih =>
      intro t ht
      cases hg : get_team db tid with
      | none =>
          simp only [update_score, hg] at ht
          exact ih t ht
      | some team =>
          simp only [update_score, hg] at ht
          rcases mem_updateFirst ht with hmem | ⟨t0, ht0, heq⟩
          · exact ih t hmem
          · subst heq
            have h0 := ih t0 ht0
            cases c <;> simp [scoreTeam, sumPoints_incKey, h0]
  | hintScore db tid cname pts now _ ih =>
      intro t ht
      cases hg : get_team db tid with
      | none =>
          have hu : update_hint_score db tid cname pts now
              = (.error (.teamNotFound tid), db) := by
            simp [update_hint_score, update_score, hg]
          rw [hu] at ht
          exact ih t ht
      | some team =>
          rw [update_hint_score_ok hg] at ht
          rcases mem_updateFirst ht with hmem | ⟨t0, ht0, heq⟩
          · exact ih t hmem
          · subst heq
            have h0 := ih t0 ht0
            simp [hintTeam, hintIncTeam, scoreTeam, sumPoints_incKey, h0]

/-- Concrete store reached by creating team `t1` and scoring a correct
`Base69` submission. -/
def reachedStore : Store :=
  (update_score (create_team [] "t1" (some "Alpha")).2 "t1" true 200
    "Base69" 3).2

/-- The single record of `reachedStore`. -/
def reachedTeam : Team := scoreTeam (newTeam 0 "t1" "Alpha") true 200 "Base69" 3

/-- Witness for C9: the invariant holds for the concrete reachable store
`reachedStore`. -/
theorem C9_witness : reachedTeam.total_points = sumPoints reachedTeam.points :=
  C9_total_points_eq_sum reachedStore
    (Reachable.score _ "t1" true 200 "Base69" 3
      (Reachable.create _ "t1" (some "Alpha") Reachable.init))
    reachedTeam
    (by rw [show reachedStore = [reachedTeam] from rfl]; exact List.mem_singleton.mpr rfl)

/-- C3: once a challenge name is in a team's `cleared_challenges`, both
`validate` and `get_hint` return the status-`info` already-cleared
response and leave the store — hence `total_points`, `points`, `hints` and
every attempt counter — completely unchanged. -/
theorem C3_already_cleared (db : Store)
    (team_id challenge_id challenge_name : String) (cls : ChallengeCls)
    (data : List (String × Val)) (hint_no : Int) (now : Nat) (team : Team)
    (hteam : get_team db team_id = some team)
    (hclear : challenge_name ∈ team.cleared_challenges) :
    validate db team_id challenge_id challenge_name cls data now
      = (.ok (.info challenge_id challenge_name team.total_points), db) ∧
    get_hint db team_id challenge_id challenge_name cls hint_no now
      = (.ok (.alreadyCleared challenge_id challenge_name), db) := by
  constructor
  · simp [validate, hteam, hclear]
  · simp [get_hint, hteam, hclear]

/-- Concrete team that has already cleared `Base69`. -/
def clearedTeam : Team :=
  { newTeam 0 "t1" "Alpha" with
    cleared_challenges := ["Base69"]
    total_points := 200 }

/-- Witness for C3: submitting and requesting a hint for the cleared
`Base69` both return the info response without touching the store. -/
theorem C3_witness :
    validate [clearedTeam] "t1" "1" "Base69" ⟨200, 40, []⟩
        [("answer", .vStr "x")] 0
      = (.ok (.info "1" "Base69" 200), [clearedTeam]) ∧
    get_hint [clearedTeam] "t1" "1" "Base69" ⟨200, 40, []⟩ 1 0
      = (.ok (.alreadyCleared "1" "Base69"), [clearedTeam]) :=
  C3_already_cleared [clearedTeam] "t1" "1" "Base69" ⟨200, 40, []⟩
    [("answer", .vStr "x")] 1 0 clearedTeam rfl (by decide)

theorem hintTeam_team_id (t : Team) (n : String) (c : Int) (now : Nat) :
    (hintTeam t n c now).team_id = t.team_id := by
  simp [hintTeam, hintIncTeam, scoreTeam_team_id]

/-- C2: sequential hint disclosure for an uncleared challenge and an
in-range hint number.  With `taken = hints_taken[challenge]`: a hint with
`hint_no ≤ taken` is returned again with no `hint_cost` and no store
change; `hint_no = taken + 1` returns the hint, deducts its cost exactly
once via `update_hint_score` and increments the taken counter;
`hint_no > taken + 1` is rejected with the sequential-order failure and no
store change. -/
theorem C2_get_hint_sequential (db : Store)
    (team_id challenge_id challenge_name : String) (cls : ChallengeCls)
    (hint_no : Int) (now : Nat) (team : Team)
    (hteam : get_team db team_id = some team)
    (hclear : challenge_name ∉ team.cleared_challenges)
    (hlo : 1 ≤ hint_no) (hhi : hint_no ≤ (cls.hints.length : Int)) :
    let taken := lookupD team.hints challenge_name 0
    let hc := cls.hints.getD (hint_no - 1).toNat (0, "")
    (hint_no ≤ taken →
      get_hint db team_id challenge_id challenge_name cls hint_no now
        = (.ok (.hint challenge_id challenge_name hint_no hc.2 none
            team.total_points), db)) ∧
    (hint_no = taken + 1 →
      get_hint db team_id challenge_id challenge_name cls hint_no now
        = (.ok (.hint challenge_id challenge_name hint_no hc.2 (some hc.1)
            (team.total_points - hc.1)),
           updateFirst db team_id
             (fun t => hintTeam t challenge_name hc.1 now)) ∧
      get_team (updateFirst db team_id
          (fun t => hintTeam t challenge_name hc.1 now)) team_id
        = some (hintTeam team challenge_name hc.1 now) ∧
      (hintTeam team challenge_name hc.1 now).total_points
        = team.total_points - hc.1 ∧
      lookupD (hintTeam team challenge_name hc.1 now).hints challenge_name 0
        = taken + 1) ∧
    (taken + 1 < hint_no →
      get_hint db team_id challenge_id challenge_name cls hint_no now
        = (.ok .orderFailure, db)) := by
  intro taken hc
  have hbounds : 0 < hint_no ∧ hint_no ≤ ((cls.hints.length : Int)) := by
    constructor <;> omega
  refine ⟨?_, ?_, ?_⟩
  · intro hle
    simp only [get_hint, hteam, if_neg hclear, if_pos hbounds]
    have h1 : taken + 1 ≥ hint_no := by omega
    have h2 : ¬ (taken + 1 = hint_no) := by omega
    simp only [taken] at h1 h2
    simp [h1, h2, hc]
  · intro heq
    have h1 : taken + 1 ≥ hint_no := by omega
    have h2 : taken + 1 = hint_no := by omega
    refine ⟨?_, ?_, ?_, ?_⟩
    · simp only [get_hint, hteam, if_neg hclear, if_pos hbounds]
      simp only [taken] at h1 h2
      simp [h1, h2, update_hint_score_ok hteam, hc]
    · rw [get_team_updateFirst db team_id _ (fun t => hintTeam_team_id ..),
        hteam]
      rfl
    · simp [hintTeam, hintIncTeam, scoreTeam]
      ring
    · simp only [hintTeam, hintIncTeam, scoreTeam]
      simp [lookupD_incKey, taken]
  · intro hgt
    simp only [get_hint, hteam, if_neg hclear, if_pos hbounds]
    have h1 : ¬ (taken + 1 ≥ hint_no) := by omega
    simp only [taken] at h1
    simp [h1]

/-- Concrete team that has already taken hint 1 of `TooMuchLight`. -/
def hintedTeam : Team :=
  { newTeam 0 "t1" "Alpha" with
    hints := [("TooMuchLight", 1)]
    total_points := 460 }

/-- Metadata of a two-hint challenge used in the C2 witness. -/
def twoHintCls : ChallengeCls := ⟨500, 100, [(40, "hint one"), (60, "hint two")]⟩

/-- Witness for C2: for `hintedTeam` (one hint taken), hint 1 is returned
again at no cost, hint 2 is paid for once, and for a fresh team hint 2 is
rejected as out of order. -/
theorem C2_witness :
    (get_hint [hintedTeam] "t1" "5" "TooMuchLight" twoHintCls 1 0
      = (.ok (.hint "5" "TooMuchLight" 1 "hint one" none 460),
         [hintedTeam])) ∧
    (get_hint [hintedTeam] "t1" "5" "TooMuchLight" twoHintCls 2 0
      = (.ok (.hint "5" "TooMuchLight" 2 "hint two" (some 60) 400),
         updateFirst [hintedTeam] "t1"
           (fun t => hintTeam t "TooMuchLight" 60 0))) ∧
    (get_hint [newTeam 0 "t2" "Beta"] "t2" "5" "TooMuchLight" twoHintCls 2 0
      = (.ok .orderFailure, [newTeam 0 "t2" "Beta"])) :=
  ⟨(C2_get_hint_sequential [hintedTeam] "t1" "5" "TooMuchLight" twoHintCls
      1 0 hintedTeam rfl (by decide) (by decide) (by decide)).1 (by decide),
   ((C2_get_hint_sequential [hintedTeam] "t1" "5" "TooMuchLight" twoHintCls
      2 0 hintedTeam rfl (by decide) (by decide) (by decide)).2.1
      (by decide)).1,
   (C2_get_hint_sequential [newTeam 0 "t2" "Beta"] "t2" "5" "TooMuchLight"
      twoHintCls 2 0 (newTeam 0 "t2" "Beta") rfl (by decide) (by decide)
      (by decide)).2.2 (by decide)⟩

/-- C1: for an uncleared challenge with nonempty validation data and every
expected key submitted, the expected entries are compared as stripped
`str()` renderings in the validation dict's own order: any mismatch yields
the status-`failure` response with `total_score` = pre-submission total
minus the penalty and applies `update_score(False, penalty)`; if all
entries match, the status-`success` response carries pre-submission total
plus the points and `update_score(True, points)` is applied. -/
theorem C1_validate_scoring (db : Store)
    (team_id challenge_id challenge_name : String) (cls : ChallengeCls)
    (data : List (String × Val)) (now : Nat) (team : Team)
    (dtv : List (String × Val))
    (hteam : get_team db team_id = some team)
    (hclear : challenge_name ∉ team.cleared_challenges)
    (hdtv : dictGet team.data_to_validate challenge_name = some dtv)
    (hne : dtv ≠ [])
    (hkeys : ∀ kv ∈ dtv, (dictGet data kv.1).isSome) :
    ((∃ kv ∈ dtv, valMatches data kv = false) →
      validate db team_id challenge_id challenge_name cls data now
        = (.ok (.failure challenge_id challenge_name cls.penalty
            (team.total_points - cls.penalty)),
           updateFirst db team_id
             (fun t => scoreTeam t false cls.penalty challenge_name now))) ∧
    ((∀ kv ∈ dtv, valMatches data kv = true) →
      validate db team_id challenge_id challenge_name cls data now
        = (.ok (.success challenge_id challenge_name cls.points
            (team.total_points + cls.points)),
           updateFirst db team_id
             (fun t => scoreTeam t true cls.points challenge_name now))) := by
  have hempty : dtv.isEmpty = false := by
    cases dtv with
    | nil => exact absurd rfl hne
    | cons kv rest => rfl
  have hkeysFind : dtv.find? (fun kv => (dictGet data kv.1).isNone) = none :=
    List.find?_eq_none.mpr (by
      intro kv hm
      simp only [Option.isNone_iff_eq_none, Bool.not_eq_true]
      intro hnone
      have := hkeys kv hm
      simp [hnone] at this)
  constructor
  · intro ⟨kv, hm, hfalse⟩
    have hsome : (dtv.find? (fun kv => !(valMatches data kv))).isSome :=
      List.find?_isSome.mpr ⟨kv, hm, by simp [hfalse]⟩
    obtain ⟨kv0, hfind⟩ := Option.isSome_iff_exists.mp hsome
    simp [validate, hteam, hclear, hdtv, hempty, hkeysFind, hfind,
      update_score_ok hteam]
  · intro hall
    have hnonefind : dtv.find? (fun kv => !(valMatches data kv)) = none :=
      List.find?_eq_none.mpr (by intro kv hm; simp [hall kv hm])
    simp [validate, hteam, hclear, hdtv, hempty, hkeysFind, hnonefind,
      update_score_ok hteam]

/-- Concrete uncleared team holding `Base69` validation data. -/
def issuedTeam : Team :=
  { newTeam 0 "t1" "Alpha" with
    total_points := 30
    data_to_validate :=
      [("Base69", [("encoded_string", .vStr "abc"),
                   ("decoded_string", .vStr "xyz")])] }

/-- Witness for C1: a submission matching both expected values after
stripping succeeds with total `30 + 200`, and a submission whose second
value differs fails with total `30 - 40`. -/
theorem C1_witness :
    (validate [issuedTeam] "t1" "1" "Base69" ⟨200, 40, []⟩
        [("encoded_string", .vStr " abc "), ("decoded_string", .vStr "xyz")] 0
      = (.ok (.success "1" "Base69" 200 230),
         updateFirst [issuedTeam] "t1"
           (fun t => scoreTeam t true 200 "Base69" 0))) ∧
    (validate [issuedTeam] "t1" "1" "Base69" ⟨200, 40, []⟩
        [("encoded_string", .vStr "abc"), ("decoded_string", .vStr "WRONG")] 0
      = (.ok (.failure "1" "Base69" 40 (-10)),
         updateFirst [issuedTeam] "t1"
           (fun t => scoreTeam t false 40 "Base69" 0))) :=
  ⟨(C1_validate_scoring [issuedTeam] "t1" "1" "Base69" ⟨200, 40, []⟩
      [("encoded_string", .vStr " abc "), ("decoded_string", .vStr "xyz")] 0
      issuedTeam [("encoded_string", .vStr "abc"), ("decoded_string", .vStr "xyz")]
      rfl (by decide) rfl (List.cons_ne_nil _ _) (by decide)).2 (by decide),
   (C1_validate_scoring [issuedTeam] "t1" "1" "Base69" ⟨200, 40, []⟩
      [("encoded_string", .vStr "abc"), ("decoded_string", .vStr "WRONG")] 0
      issuedTeam [("encoded_string", .vStr "abc"), ("decoded_string", .vStr "xyz")]
      rfl (by decide) rfl (List.cons_ne_nil _ _) (by decide)).1
      ⟨("decoded_string", .vStr "xyz"), List.Mem.tail _ (List.Mem.head _),
        by decide⟩⟩

/-- C6: for an uncleared challenge, absent validation data makes
`validate` fail with the validation-data-missing error, and a submission
missing one of the expected keys fails with a missing-parameter error
naming an absent expected key; both failures leave the store unchanged. -/
theorem C6_validation_guards (db : Store)
    (team_id challenge_id challenge_name : String) (cls : ChallengeCls)
    (data : List (String × Val)) (now : Nat) (team : Team)
    (hteam : get_team db team_id = some team)
    (hclear : challenge_name ∉ team.cleared_challenges) :
    (dictGet team.data_to_validate challenge_name = none →
      validate db team_id challenge_id challenge_name cls data now
        = (.error .validationDataMissing, db)) ∧
    (∀ dtv, dictGet team.data_to_validate challenge_name = some dtv →
      (∃ kv ∈ dtv, dictGet data kv.1 = none) →
      ∃ key, (∃ v, (key, v) ∈ dtv) ∧ dictGet data key = none ∧
        validate db team_id challenge_id challenge_name cls data now
          = (.error (.missingParameter key), db)) := by
  constructor
  · intro h
    simp [validate, hteam, hclear, h]
  · intro dtv hdtv ⟨kv, hm, hnone⟩
    have hempty : dtv.isEmpty = false := by
      cases dtv with
      | nil => simp at hm
      | cons kv rest => rfl
    have hsome : (dtv.find? (fun kv => (dictGet data kv.1).isNone)).isSome :=
      List.find?_isSome.mpr ⟨kv, hm, by simp [hnone]⟩
    obtain ⟨kv0, hfind⟩ := Option.isSome_iff_exists.mp hsome
    refine ⟨kv0.1, ⟨kv0.2, ?_⟩, ?_, ?_⟩
    · exact List.mem_of_find?_eq_some hfind
    · have := List.find?_some hfind
      simpa using this
    · simp [validate, hteam, hclear, hdtv, hempty, hfind]

/-- Witness for C6: validating `Base69` for a fresh team (no validation
data yet) fails with the missing-data error, and submitting to
`issuedTeam` without the `decoded_string` field fails with a
missing-parameter error naming an absent expected key. -/
theorem C6_witness :
    (validate [newTeam 0 "t2" "Beta"] "t2" "1" "Base69" ⟨200, 40, []⟩
        [("encoded_string", .vStr "abc")] 0
      = (.error .validationDataMissing, [newTeam 0 "t2" "Beta"])) ∧
    (∃ key, (∃ v, (key, v) ∈ [("encoded_string", Val.vStr "abc"),
        ("decoded_string", Val.vStr "xyz")]) ∧
      dictGet [("encoded_string", Val.vStr "abc")] key = none ∧
      validate [issuedTeam] "t1" "1" "Base69" ⟨200, 40, []⟩
          [("encoded_string", .vStr "abc")] 0
        = (.error (.missingParameter key), [issuedTeam])) :=
  ⟨(C6_validation_guards [newTeam 0 "t2" "Beta"] "t2" "1" "Base69"
      ⟨200, 40, []⟩ [("encoded_string", .vStr "abc")] 0 (newTeam 0 "t2" "Beta")
      rfl (by decide)).1 rfl,
   (C6_validation_guards [issuedTeam] "t1" "1" "Base69" ⟨200, 40, []⟩
      [("encoded_string", .vStr "abc")] 0 issuedTeam rfl (by decide)).2
      [("encoded_string", .vStr "abc"), ("decoded_string", .vStr "xyz")] rfl
      ⟨("decoded_string", .vStr "xyz"), List.Mem.tail _ (List.Mem.head _),
        rfl⟩⟩

/-- Reference traversal for `get_nested_value`: follow every path segment
through nested dicts, `none` the moment a segment is missing or the
current value is not a dict. -/
def reachPath : Val → List String → Option Val
  | cur, [] => some cur
  | .vDict es, k :: rest =>
      (match dictGet es k with
       | some v => reachPath v rest
       | none => none)
  | _, _ :: _ => none

theorem go_default (default : Val) (h : default.isDict = false)
    (segs : List String) :
    get_nested_value.go default segs default = default := by
  cases segs with
  | nil => rfl
  | cons k rest => cases default <;> simp_all [get_nested_value.go, Val.isDict]

theorem go_eq_reach (default : Val) (h : default.isDict = false) :
    ∀ (segs : List String) (json : Val),
      get_nested_value.go default segs json
        = (reachPath json segs).getD default := by
  intro segs
  induction segs with
  | nil => intro json; cases json <;> rfl
  | cons k rest ih =>
      intro json
      cases json with
      | vDict es =>
          cases hg : dictGet es k with
          | some v => simp [get_nested_value.go, reachPath, hg, ih]
          | none =>
              simp only [get_nested_value.go, reachPath, hg, Option.getD_none,
                Option.getD_some]
              exact go_default default h rest
      | vNone => rfl
      | vStr s => rfl
      | vInt n => rfl
      | vList xs => rfl

theorem go_of_reach_some (default : Val) :
    ∀ (segs : List String) (json v : Val),
      reachPath json segs = some v →
      get_nested_value.go default segs json = v := by
  intro segs
  induction segs with
  | nil =>
      intro json v h
      cases json <;> simp only [reachPath, Option.some_inj] at h <;>
        exact h ▸ rfl
  | cons k rest ih =>
      intro json v h
      cases json with
      | vDict es =>
          cases hg : dictGet es k with
          | some w =>
              simp only [reachPath, hg] at h
              simpa [get_nested_value.go, hg] using ih w v h
          | none => simp [reachPath, hg] at h
      | vNone => simp [reachPath] at h
      | vStr s => simp [reachPath] at h
      | vInt n => simp [reachPath] at h
      | vList xs => simp [reachPath] at h

/-- C8 counterexample: record `{}`, path `"a.b"`, default `{"b": 5}`.  The
segment `"a"` is missing from the record, so the claim requires the result
to be the default `{"b": 5}`; the code substitutes the default for the
current value and keeps traversing it, returning `5`. -/
theorem C8_counterexample :
    dictGet ([] : List (String × Val)) "a" = none ∧
    get_nested_value (.vDict []) "a.b" (.vDict [("b", .vInt 5)]) = .vInt 5 ∧
    Val.vInt 5 ≠ Val.vDict [("b", .vInt 5)] :=
  ⟨rfl, rfl, fun h => Val.noConfusion h⟩

/-- C8 (amended): `get_nested_value` is a pure function of its arguments;
for a non-dict default it returns the default the moment a segment is
missing or the current value is not a dict, and otherwise the value
reached by following every segment; when the full path resolves, the
result is the reached value for every default.  (A dict default is instead
substituted for the missing value and traversal continues.) -/
theorem C8_get_nested_value (json : Val) (path : String) (default : Val) :
    (default.isDict = false →
      get_nested_value json path default
        = (reachPath json (splitDot path)).getD default) ∧
    (∀ v, reachPath json (splitDot path) = some v →
      get_nested_value json path default = v) := by
  constructor
  · intro h
    exact go_eq_reach default h (splitDot path) json
  · intro v hv
    exact go_of_reach_some default (splitDot path) json v hv

/-- Witness for C8: the nested record `{"a": {"b": 7}}` with path `"a.b"`
and default `None` resolves to `7`. -/
theorem C8_witness :
    get_nested_value (.vDict [("a", .vDict [("b", .vInt 7)])]) "a.b" .vNone
      = (reachPath (.vDict [("a", .vDict [("b", .vInt 7)])])
          (splitDot "a.b")).getD .vNone ∧
    get_nested_value (.vDict [("a", .vDict [("b", .vInt 7)])]) "a.b" .vNone
      = .vInt 7 :=
  ⟨(C8_get_nested_value (.vDict [("a", .vDict [("b", .vInt 7)])]) "a.b"
      .vNone).1 rfl,
   (C8_get_nested_value (.vDict [("a", .vDict [("b", .vInt 7)])]) "a.b"
      .vNone).2 (.vInt 7) rfl⟩

theorem dictGet_eq_find {α : Type} (d : List (String × α)) (k : String) :
    dictGet d k = (d.find? (fun kv => kv.1 == k)).map Prod.snd := by
  induction d with
  | nil => rfl
  | cons kv rest ih =>
      by_cases h : kv.1 = k
      · simp [dictGet, List.find?, h]
      · have hb : (kv.1 == k) = false := by simp [h]
        simp [dictGet, List.find?, h, hb, ih]

theorem dictGet_map_keys (d : List (String × Val)) (g : String × Val → Val)
    (k : String) :
    dictGet (d.map (fun kv => (kv.1, g kv))) k
      = (d.find? (fun kv => kv.1 == k)).map g := by
  induction d with
  | nil => rfl
  | cons kv rest ih =>
      by_cases h : kv.1 = k
      · simp [dictGet, List.find?, h]
      · have hb : (kv.1 == k) = false := by simp [h]
        simp [dictGet, List.find?, h, hb, ih]

theorem dictGet_append_some {α : Type} {xs : List (String × α)}
    (ys : List (String × α)) {k : String} {v : α}
    (h : dictGet xs k = some v) : dictGet (xs ++ ys) k = some v := by
  induction xs with
  | nil => simp [dictGet] at h
  | cons kv rest ih =>
      by_cases hk : kv.1 = k
      · simp_all [dictGet]
      · simp_all [dictGet]

theorem dictGet_append_none {α : Type} {xs : List (String × α)}
    (ys : List (String × α)) {k : String}
    (h : dictGet xs k = none) : dictGet (xs ++ ys) k = dictGet ys k := by
  induction xs with
  | nil => rfl
  | cons kv rest ih =>
      by_cases hk : kv.1 = k
      · simp_all [dictGet]
      · simp_all [dictGet]

theorem dictGet_filter (d : List (String × Val)) (p : String × Val → Bool)
    (k : String) (hp : ∀ v, p (k, v) = true) :
    dictGet (d.filter p) k = dictGet d k := by
  induction d with
  | nil => rfl
  | cons kv rest ih =>
      obtain ⟨k1, v1⟩ := kv
      by_cases hk : k1 = k
      · subst hk
        simp [List.filter, hp v1, dictGet]
      · cases hpv : p (k1, v1) with
        | true => simp [List.filter, hpv, dictGet, hk, ih]
        | false => simp [List.filter, hpv, dictGet, hk, ih]

/-- A key bound in the right operand of a Python dict union is bound to
that value in the union, whether or not the left operand also has it. -/
theorem dictGet_pyUnion_right (d1 d2 : List (String × Val)) (k : String)
    (v : Val) (h : dictGet d2 k = some v) :
    dictGet (pyUnion d1 d2) k = some v := by
  cases hfind : d1.find? (fun kv => kv.1 == k) with
  | some kv0 =>
      have hkey : kv0.1 = k := by
        have := List.find?_some hfind
        simpa using this
      apply dictGet_append_some
      rw [dictGet_map_keys, hfind]
      simp [hkey, h]
  | none =>
      have h1' : dictGet d1 k = none := by rw [dictGet_eq_find, hfind]; rfl
      have hm : dictGet
          (d1.map (fun kv => (kv.1, (dictGet d2 kv.1).getD kv.2))) k = none := by
        rw [dictGet_map_keys, hfind]; rfl
      rw [pyUnion, dictGet_append_none _ hm, dictGet_filter]
      · exact h
      · intro v'
        simp [h1']

/-- The metadata of `TheBlackSheep` (`src/round_1/the_black_sheep/
challenge.py:30-31`): 300 points, 50 penalty, one hint costing 200. -/
def blackSheepCls : ChallengeCls :=
  ⟨300, 50, [(200, "You should consider document fingerprinting")]⟩

/-- C5 counterexample: in the decorated `TheBlackSheep` payload, the single
`hints_list` entry carries the keys `hint_no` AND `points` — the hint's
cost — so it does not contain only the ordinal position. -/
theorem C5_counterexample :
    dictGet (generate_full_question (.vStr "4") blackSheepCls
        [("title", .vStr "TheBlackSheep")]) "hints"
      = some (.vDict [("count", .vInt 1),
          ("hints_list", .vList
            [.vDict [("hint_no", .vInt 1), ("points", .vInt 200)]])]) ∧
    ([("hint_no", Val.vInt 1), ("points", Val.vInt 200)].map Prod.fst)
      ≠ ["hint_no"] :=
  ⟨rfl, by decide⟩

/-- C5 (amended): the decorated payload's `hints` block lists, for each
hint, exactly its ordinal `hint_no` and its cost `points`; the hint text
is omitted (it is revealed only by `get_hint`).  The block comes from
`additional_info`, which wins the dict union against any question key. -/
theorem C5_hint_metadata (challenge_id : Val) (cls : ChallengeCls)
    (question : List (String × Val)) :
    dictGet (generate_full_question challenge_id cls question) "hints"
      = some (.vDict
          [("count", .vInt cls.hints.length),
           ("hints_list", .vList ((List.range cls.hints.length).map
              (fun (i : Nat) =>
                .vDict [("hint_no", .vInt ((i : Int) + 1)),
                        ("points", .vInt ((cls.hints.getD i (0, "")).1))])))]) :=
  dictGet_pyUnion_right question (additionalInfo challenge_id cls) "hints" _ rfl

/-- C7 counterexample: after `t1` exists, `create_team` with the same id
succeeds (returns `"t1"`) and the store now holds two records with that
team id — it did not fail on the duplicate. -/
theorem C7_counterexample :
    (create_team (create_team [] "t1" (some "Alpha")).2 "t1" (some "Beta")).1
      = "t1" ∧
    (((create_team (create_team [] "t1" (some "Alpha")).2 "t1"
        (some "Beta")).2).filter (fun t => t.team_id == "t1")).length = 2 :=
  ⟨rfl, rfl⟩

/-- C7 (amended): `create_team` unconditionally appends a fresh record —
zeroed `total_points`, empty per-puzzle maps, empty `cleared_challenges`
and `questions` — and returns the team id; it performs no duplicate check
(the store always grows by one record, existing id or not), uniqueness
being the caller's responsibility. -/
theorem C7_create_team (db : Store) (team_id : String)
    (team_name : Option String) :
    (create_team db team_id team_name).1 = team_id ∧
    ((create_team db team_id team_name).2).length = db.length + 1 ∧
    ∃ t, (create_team db team_id team_name).2 = db ++ [t] ∧
      t.team_id = team_id ∧ t.team_no = db.length ∧ t.total_points = 0 ∧
      t.points = [] ∧ t.hints = [] ∧ t.total_attempts = [] ∧
      t.incorrect_attempts = [] ∧ t.cleared_challenges = [] ∧
      t.questions = [] ∧ t.data_to_validate = [] ∧ t.time = [] := by
  refine ⟨rfl, by simp [create_team], ?_⟩
  cases team_name with
  | none =>
      exact ⟨newTeam db.length team_id ("Team - " ++ toString db.length),
        rfl, rfl, rfl, rfl, rfl, rfl, rfl, rfl, rfl, rfl, rfl, rfl⟩
  | some n =>
      by_cases hn : n = ""
      · refine ⟨newTeam db.length team_id ("Team - " ++ toString db.length),
          ?_, rfl, rfl, rfl, rfl, rfl, rfl, rfl, rfl, rfl, rfl, rfl⟩
        simp [create_team, hn]
      · refine ⟨newTeam db.length team_id n,
          ?_, rfl, rfl, rfl, rfl, rfl, rfl, rfl, rfl, rfl, rfl, rfl⟩
        simp [create_team, hn]

/-- Concrete uncleared team expecting the string `"42"` for the field
`answer` of puzzle `Answer42`. -/
def numericTeam : Team :=
  { newTeam 0 "t1" "Alpha" with
    data_to_validate := [("Answer42", [("answer", .vStr "42")])] }

/-- C10: the comparison in `validate` converts both the submitted and the
expected value with `str()` before stripping, so two values compare equal
iff their `str()` renderings agree after stripping surrounding whitespace;
in particular the JSON number `42` matches the expected string `"42"` and
the submission succeeds. -/
theorem C10_str_comparison :
    (∀ (data : List (String × Val)) (kv : String × Val),
      valMatches data kv = true ↔
        pyStrip (pyStr ((dictGet data kv.1).getD .vNone))
          = pyStrip (pyStr kv.2)) ∧
    pyStr (.vInt 42) = "42" ∧
    validate [numericTeam] "t1" "1" "Answer42" ⟨50, 10, []⟩
        [("answer", .vInt 42)] 0
      = (.ok (.success "1" "Answer42" 50 50),
         updateFirst [numericTeam] "t1"
           (fun t => scoreTeam t true 50 "Answer42" 0)) :=
  ⟨fun data kv => by simp [valMatches], rfl, rfl⟩
